import Mathlib

/-!
Verification of the rvc-webui training-tab pipeline and checkpoint packager.

Shallow embedding of two Python modules:

* `modules/training/checkpoints.py` — `write_config` and `save`: packaging a
  model state dict into a checkpoint record with a per-sampling-rate
  hyperparameter preset, filtering out `enc_q` tensors and converting the
  rest to half precision, then persisting to a fixed path.

* `modules/tabs/training.py` — the `train` generator: stage sequencing
  (directory setup, preprocess, f0 extraction, feature extraction, manifest
  building, training), and in particular the manifest builder, which
  intersects the sample-identifier sets of the per-stage output folders and
  writes one pipe-delimited line per surviving identifier plus a fixed
  "mute" line.

Modelling decisions (stated once, used throughout):

* Python values appearing in the hyperparameter presets are embedded as the
  inductive `PValue` (ints, strings, nested lists).
* A Python `dict` used as an ordered record is embedded as an association
  list `List (String × _)` (Python dicts preserve insertion order).
* Tensors are abstract: `save` is parametric over a tensor type `α`, a
  half-precision type `β` and the conversion `half : α → β`; the key
  filtering and record layout do not depend on tensor contents.
* `torch.save(obj, path)` is embedded by returning the object together with
  the path it is written to (`SaveOutput`).
* `os.path.join` is embedded by `pjoin` with POSIX semantics (an absolute
  second component replaces the first; otherwise concatenation with `/`
  unless the first part is empty or already ends in `/`).
* `os.listdir` results are the `FolderState` lists of file names; the
  filesystem guarantees a directory entry never contains `/`, which appears
  as the `noSlash` hypotheses.
* A Python `set` (whose iteration order is unspecified) is embedded as a
  duplicate-free list in first-occurrence order; every property proved
  about the manifest below is invariant under reordering of the sample
  lines, so the canonical order loses nothing.
* A Python generator is embedded as the list of observable events (yielded
  status strings, external calls, filesystem effects) in program order.
-/

/-- A Python value as it appears in the hyperparameter presets:
integers, strings, and (nested) lists. -/
inductive PValue where
  | int : Int → PValue
  | str : String → PValue
  | list : List PValue → PValue

/-- POSIX `os.path.join` for two components, as implemented by
`posixpath.join`: if `b` is absolute it replaces `a`; otherwise `b` is
appended, inserting `/` unless `a` is empty or already ends with `/`. -/
def pjoin (a b : String) : String :=
  if b.data.head? = some '/' then b
  else if a = "" then b
  else if a.data.getLast? = some '/' then a ++ b
  else a ++ "/" ++ b

/-- The checkpoint record built by `save` in
`modules/training/checkpoints.py`: an ordered dict with keys `weight`,
(optionally) `config` and `params`, then `info`, `sr`, `f0`.  Optional keys
are `Option` fields; `none` means the key is absent from the dict. -/
structure StateDict (β : Type) where
  weight : List (String × β)
  config : Option (List PValue)
  params : Option (List (String × PValue))
  info : String
  sr : String
  f0 : Int

/-- Embedding of `write_config(state_dict, cfg)`: sets `state_dict["config"]` to the
list of `cfg`'s values in insertion order and `state_dict["params"]` to
`cfg` itself. -/
def write_config (state : StateDict β) (cfg : List (String × PValue)) :
    StateDict β :=
  { state with
    config := some (cfg.map (fun x => x.2))
    params := some cfg }

/-- The `"40k"` hyperparameter preset of `save` (checkpoints.py lines 25-44),
in the source's insertion order. -/
def cfg40k : List (String × PValue) :=
  [("spec_channels", .int 1025),
   ("segment_size", .int 32),
   ("inter_channels", .int 192),
   ("hidden_channels", .int 192),
   ("filter_channels", .int 768),
   ("n_heads", .int 2),
   ("n_layers", .int 6),
   ("kernel_size", .int 3),
   ("p_dropout", .int 0),
   ("resblock", .str "1"),
   ("resblock_kernel_sizes", .list [.int 3, .int 7, .int 11]),
   ("resblock_dilation_sizes",
     .list [.list [.int 1, .int 3, .int 5], .list [.int 1, .int 3, .int 5],
            .list [.int 1, .int 3, .int 5]]),
   ("upsample_rates", .list [.int 10, .int 10, .int 2, .int 2]),
   ("upsample_initial_channel", .int 512),
   ("upsample_kernel_sizes", .list [.int 16, .int 16, .int 4, .int 4]),
   ("spk_embed_dim", .int 109),
   ("gin_channels", .int 256),
   ("sr", .int 40000)]

/-- The `"48k"` hyperparameter preset of `save` (checkpoints.py lines 49-68). -/
def cfg48k : List (String × PValue) :=
  [("spec_channels", .int 1025),
   ("segment_size", .int 32),
   ("inter_channels", .int 192),
   ("hidden_channels", .int 192),
   ("filter_channels", .int 768),
   ("n_heads", .int 2),
   ("n_layers", .int 6),
   ("kernel_size", .int 3),
   ("p_dropout", .int 0),
   ("resblock", .str "1"),
   ("resblock_kernel_sizes", .list [.int 3, .int 7, .int 11]),
   ("resblock_dilation_sizes",
     .list [.list [.int 1, .int 3, .int 5], .list [.int 1, .int 3, .int 5],
            .list [.int 1, .int 3, .int 5]]),
   ("upsample_rates", .list [.int 10, .int 6, .int 2, .int 2, .int 2]),
   ("upsample_initial_channel", .int 512),
   ("upsample_kernel_sizes",
     .list [.int 16, .int 16, .int 4, .int 4, .int 4]),
   ("spk_embed_dim", .int 109),
   ("gin_channels", .int 256),
   ("sr", .int 48000)]

/-- The `"32k"` hyperparameter preset of `save` (checkpoints.py lines 73-92). -/
def cfg32k : List (String × PValue) :=
  [("spec_channels", .int 513),
   ("segment_size", .int 32),
   ("inter_channels", .int 192),
   ("hidden_channels", .int 192),
   ("filter_channels", .int 768),
   ("n_heads", .int 2),
   ("n_layers", .int 6),
   ("kernel_size", .int 3),
   ("p_dropout", .int 0),
   ("resblock", .str "1"),
   ("resblock_kernel_sizes", .list [.int 3, .int 7, .int 11]),
   ("resblock_dilation_sizes",
     .list [.list [.int 1, .int 3, .int 5], .list [.int 1, .int 3, .int 5],
            .list [.int 1, .int 3, .int 5]]),
   ("upsample_rates", .list [.int 10, .int 4, .int 2, .int 2, .int 2]),
   ("upsample_initial_channel", .int 512),
   ("upsample_kernel_sizes",
     .list [.int 16, .int 16, .int 4, .int 4, .int 4]),
   ("spk_embed_dim", .int 109),
   ("gin_channels", .int 256),
   ("sr", .int 32000)]

/-- Result of `save`: the packaged state dict together with the path
`torch.save` writes it to. -/
structure SaveOutput (β : Type) where
  dict : StateDict β
  path : String

/-- Python's `"enc_q" in key`: substring containment, i.e. the characters of
`"enc_q"` form a contiguous infix of the characters of `key`. -/
def containsEncQ (key : String) : Bool :=
  decide ("enc_q".data <:+: key.data)

/-- Embedding of `save(ckpt, sr, if_f0, name, epoch)` from
`modules/training/checkpoints.py`:

* `weight` keeps every entry of `ckpt` whose key does not contain `"enc_q"`,
  with its tensor converted by `half`;
* a recognized `sr` tag (`"40k"`, `"48k"`, `"32k"`) installs `config` and
  `params` via `write_config` with the matching preset; any other tag leaves
  both absent;
* `info` is `f"{epoch}epoch"`, `sr` and `f0` are stored as given;
* the dict is written to `os.path.join(MODELS_DIR, "checkpoints",
  f"{name}.pth")` (the `MODELS_DIR` constant is the `modelsDir` argument). -/
def save (half : α → β) (modelsDir : String) (ckpt : List (String × α))
    (sr : String) (if_f0 : Int) (name : String) (epoch : Int) :
    SaveOutput β :=
  let weight :=
    (ckpt.filter (fun kv => !containsEncQ kv.1)).map
      (fun kv => (kv.1, half kv.2))
  let st0 : StateDict β :=
    { weight := weight
      config := none
      params := none
      info := toString epoch ++ "epoch"
      sr := sr
      f0 := if_f0 }
  let st1 :=
    if sr = "40k" then write_config st0 cfg40k
    else if sr = "48k" then write_config st0 cfg48k
    else if sr = "32k" then write_config st0 cfg32k
    else st0
  { dict := st1
    path := pjoin (pjoin modelsDir "checkpoints") (name ++ ".pth") }

/-- Embedding of `name.split(".")[0]` from the manifest builder: the part of a file name
before its first `.` (the whole name when it contains no dot). -/
def idOf (s : String) : String := ⟨s.data.takeWhile (fun c => c ≠ '.')⟩

/-- The `os.listdir` results of the four per-stage output folders at
manifest-building time: `0_gt_wavs`, `3_feature256`, `2a_f0`, `2b_f0nsf`. -/
structure FolderState where
  gtWavs : List String
  feature256 : List String
  f0 : List String
  f0nsf : List String

/-- Embedding of `set(name.split(".")[0] for name in os.listdir(dir))`: the identifier
set of one folder, as a duplicate-free list in first-occurrence order (a
Python set's iteration order is unspecified; all properties proved below
are order-invariant). -/
def sampleIds (files : List String) : List String := (files.map idOf).dedup

/-- The intersection `set(gt) & set(co256) (& set(f0) & set(f0nsf) when
pitch guidance is on)` computed by the manifest builder, as a
duplicate-free list (membership-faithful to the Python set intersection). -/
def namesOf (d : FolderState) (pitch : Bool) : List String :=
  (sampleIds d.gtWavs).filter (fun id =>
    decide (id ∈ sampleIds d.feature256) &&
    (!pitch ||
      (decide (id ∈ sampleIds d.f0) && decide (id ∈ sampleIds d.f0nsf))))

/-- Path `os.path.join(MODELS_DIR, "training", "models", model_name)`. -/
def trainingDirOf (modelsDir modelName : String) : String :=
  pjoin (pjoin (pjoin modelsDir "training") "models") modelName

/-- Path `os.path.join(training_dir, "0_gt_wavs")`. -/
def gtWavsDirOf (modelsDir modelName : String) : String :=
  pjoin (trainingDirOf modelsDir modelName) "0_gt_wavs"

/-- Path `os.path.join(training_dir, "3_feature256")`. -/
def co256DirOf (modelsDir modelName : String) : String :=
  pjoin (trainingDirOf modelsDir modelName) "3_feature256"

/-- Path `os.path.join(training_dir, "2a_f0")`. -/
def f0DirOf (modelsDir modelName : String) : String :=
  pjoin (trainingDirOf modelsDir modelName) "2a_f0"

/-- Path `os.path.join(training_dir, "2b_f0nsf")`. -/
def f0nsfDirOf (modelsDir modelName : String) : String :=
  pjoin (trainingDirOf modelsDir modelName) "2b_f0nsf"

/-- One sample line of the manifest (training.py lines 84-96): with pitch
guidance `gt_wav_path|co256_path|f0_path|f0nsf_path|speaker_id`, without it
`gt_wav_path|co256_path|speaker_id`, each path rebuilt from the identifier
with a fixed suffix. -/
def sampleLine (modelsDir modelName : String) (pitch : Bool)
    (speakerId : Nat) (id : String) : String :=
  let gt := pjoin (gtWavsDirOf modelsDir modelName) (id ++ ".wav")
  let co := pjoin (co256DirOf modelsDir modelName) (id ++ ".npy")
  if pitch then
    let f0p := pjoin (f0DirOf modelsDir modelName) (id ++ ".wav.npy")
    let f0nsfp := pjoin (f0nsfDirOf modelsDir modelName) (id ++ ".wav.npy")
    gt ++ "|" ++ co ++ "|" ++ f0p ++ "|" ++ f0nsfp ++ "|" ++ toString speakerId
  else
    gt ++ "|" ++ co ++ "|" ++ toString speakerId

/-- The fixed mute line appended to every manifest (training.py lines
98-121), built from the silence assets under
`MODELS_DIR/training/mute/...`. -/
def muteLine (modelsDir targetSr : String) (pitch : Bool)
    (speakerId : Nat) : String :=
  let muteDir := pjoin (pjoin modelsDir "training") "mute"
  let gt := pjoin (pjoin muteDir "0_gt_wavs") ("mute" ++ targetSr ++ ".wav")
  let co := pjoin (pjoin muteDir "3_feature256") "mute.npy"
  if pitch then
    let f0p := pjoin (pjoin muteDir "2a_f0") "mute.wav.npy"
    let f0nsfp := pjoin (pjoin muteDir "2b_f0nsf") "mute.wav.npy"
    gt ++ "|" ++ co ++ "|" ++ f0p ++ "|" ++ f0nsfp ++ "|" ++ toString speakerId
  else
    gt ++ "|" ++ co ++ "|" ++ toString speakerId

/-- The sample lines of the manifest: one per identifier surviving the
intersection. -/
def sampleLines (modelsDir modelName : String) (pitch : Bool)
    (speakerId : Nat) (d : FolderState) : List String :=
  (namesOf d pitch).map (sampleLine modelsDir modelName pitch speakerId)

/-- The full manifest `opt` written to `filelist.txt`: the sample lines
followed by the mute line. -/
def manifest (modelsDir modelName targetSr : String) (pitch : Bool)
    (speakerId : Nat) (d : FolderState) : List String :=
  sampleLines modelsDir modelName pitch speakerId d ++
    [muteLine modelsDir targetSr pitch speakerId]

/-- The file content written by `f.write("\n".join(opt))`. -/
def manifestFile (modelsDir modelName targetSr : String) (pitch : Bool)
    (speakerId : Nat) (d : FolderState) : String :=
  String.intercalate "\n"
    (manifest modelsDir modelName targetSr pitch speakerId d)

/-- Removing every directory entry of a given sample identifier from one
folder listing (the hypothetical "remove a sample's entry from a single
required folder" of the claim). -/
def removeId (files : List String) (id : String) : List String :=
  files.filter (fun f => decide (idOf f ≠ id))

/-- The `SR_DICT` constant of `modules/tabs/training.py`. -/
def SR_DICT : List (String × Int) :=
  [("32k", 32000), ("40k", 40000), ("48k", 48000)]

/-- A folder listing whose entries contain no `/` — always true of
`os.listdir` results, since directory entries are base names. -/
def noSlashListing (files : List String) : Prop :=
  ∀ f ∈ files, ('/' : Char) ∉ f.data

/-- Splitting a character sequence at `|` separators, the reference reading
of "pipe-delimited fields": `n` separators delimit `n + 1` fields. -/
def splitFields : List Char → List (List Char)
  | [] => [[]]
  | c :: rest =>
    if c = '|' then [] :: splitFields rest
    else
      match splitFields rest with
      | [] => [[c]]
      | f :: fs => (c :: f) :: fs

/-- The number of pipe-delimited fields of a string. -/
def numFields (s : String) : Nat := (splitFields s.data).length

/-- One observable event of the `train` generator in
`modules/tabs/training.py`: a yielded status string, a filesystem effect,
or a blocking external call (with the arguments the source passes). -/
inductive Event where
  | status : String → Event
  | rmtree : String → Event
  | makedirs : String → Event
  | callPreprocess : String → Option Int → Nat → String → Event
  | callExtractF0 : String → Nat → String → Event
  | callExtractFeature : String → Event
  | writeFile : String → String → Event
  | callRunTraining : List String → String → String → String → Int → Nat →
      Bool → Nat → Nat → String → String → Event
deriving DecidableEq

/-- The UI-form arguments of `train` (training.py lines 29-45), with the
numeric sliders as naturals and checkboxes as booleans. -/
structure TrainArgs where
  modelName : String
  targetSr : String
  f0Choice : String
  datasetDir : String
  speakerId : Nat
  gpuId : String
  numCpuProcess : Nat
  pitchExtractionAlgo : String
  batchSize : Nat
  cacheBatch : Bool
  numEpochs : Nat
  saveEveryEpoch : Nat
  preTrainedG : String
  preTrainedD : String
  ignoreCache : Bool

/-- The event trace of one run of the `train` generator, in program order
(training.py lines 46-139).  `dirExists` abstracts
`os.path.exists(training_dir)`; `d` is the folder state the manifest
builder observes after the extraction stages.  Yields become `status`
events; each external call blocks until it returns, so trace order is
execution order.  `SR_DICT[target_sr]` is embedded as the association-list
lookup (a missing tag, impossible through the UI radio, would raise
`KeyError` in Python and is carried here as `none`). -/
def trainTrace (modelsDir : String) (a : TrainArgs) (dirExists : Bool)
    (d : FolderState) : List Event :=
  let pitch : Bool := a.f0Choice = "Yes"
  let trainingDir := trainingDirOf modelsDir a.modelName
  [Event.status ("Training directory: " ++ trainingDir)] ++
    (if dirExists && a.ignoreCache then [Event.rmtree trainingDir]
      else []) ++
    [Event.makedirs trainingDir,
     Event.status "Preprocessing...",
     Event.callPreprocess a.datasetDir (SR_DICT.lookup a.targetSr)
       a.numCpuProcess trainingDir,
     Event.status "Extracting f0...",
     Event.callExtractF0 trainingDir a.numCpuProcess a.pitchExtractionAlgo,
     Event.status "Extracting features...",
     Event.callExtractFeature trainingDir,
     Event.writeFile (pjoin trainingDir "filelist.txt")
       (manifestFile modelsDir a.modelName a.targetSr pitch a.speakerId d),
     Event.status "Training...",
     Event.callRunTraining (a.gpuId.splitOn ",") trainingDir a.modelName
       a.targetSr (if pitch then 1 else 0) a.batchSize a.cacheBatch
       a.numEpochs a.saveEveryEpoch a.preTrainedG a.preTrainedD]

/-- C2: with tag `"40k"` the packaged `params` has `sr = 40000` and
`upsample_rates = [10,10,2,2]`; with `"48k"`,
`upsample_rates = [10,6,2,2,2]`; with `"32k"`, `spec_channels = 513` and
`upsample_rates = [10,4,2,2,2]` — for every state dict, name and epoch. -/
theorem C2_preset_values (half : α → β) (modelsDir : String)
    (ckpt : List (String × α)) (if_f0 : Int) (name : String) (epoch : Int) :
    ((save half modelsDir ckpt "40k" if_f0 name epoch).dict.params.bind
        (List.lookup "sr") = some (.int 40000) ∧
      (save half modelsDir ckpt "40k" if_f0 name epoch).dict.params.bind
        (List.lookup "upsample_rates") =
        some (.list [.int 10, .int 10, .int 2, .int 2])) ∧
    ((save half modelsDir ckpt "48k" if_f0 name epoch).dict.params.bind
        (List.lookup "upsample_rates") =
        some (.list [.int 10, .int 6, .int 2, .int 2, .int 2])) ∧
    ((save half modelsDir ckpt "32k" if_f0 name epoch).dict.params.bind
        (List.lookup "spec_channels") = some (.int 513) ∧
      (save half modelsDir ckpt "32k" if_f0 name epoch).dict.params.bind
        (List.lookup "upsample_rates") =
        some (.list [.int 10, .int 4, .int 2, .int 2, .int 2])) := by
  refine ⟨⟨?_, ?_⟩, ?_, ?_, ?_⟩ <;> rfl

/-- C3: an unrecognized sampling-rate tag takes none of the three
`write_config` branches: `save` (a total function here, so no exception is
modelled or possible) leaves `config` and `params` absent, still sets
`info`, `sr`, `f0` to the given values, and still persists the record to
the checkpoint path. -/
theorem C3_unrecognized_tag (half : α → β) (modelsDir : String)
    (ckpt : List (String × α)) (sr : String) (if_f0 : Int) (name : String)
    (epoch : Int) (h40 : sr ≠ "40k") (h48 : sr ≠ "48k") (h32 : sr ≠ "32k") :
    (save half modelsDir ckpt sr if_f0 name epoch).dict.config = none ∧
    (save half modelsDir ckpt sr if_f0 name epoch).dict.params = none ∧
    (save half modelsDir ckpt sr if_f0 name epoch).dict.info =
      toString epoch ++ "epoch" ∧
    (save half modelsDir ckpt sr if_f0 name epoch).dict.sr = sr ∧
    (save half modelsDir ckpt sr if_f0 name epoch).dict.f0 = if_f0 ∧
    (save half modelsDir ckpt sr if_f0 name epoch).path =
      pjoin (pjoin modelsDir "checkpoints") (name ++ ".pth") := by
  simp only [save, if_neg h40, if_neg h48, if_neg h32]
  refine ⟨?_, ?_, ?_, ?_, ?_, ?_⟩ <;> trivial

/-- Witness for C3 at the concrete unrecognized tag `"44k"`. -/
theorem C3_unrecognized_tag_witness :
    (save (id : Nat → Nat) "m" [("k", 1)] "44k" 1 "n" 2).dict.config = none ∧
    (save (id : Nat → Nat) "m" [("k", 1)] "44k" 1 "n" 2).dict.params = none ∧
    (save (id : Nat → Nat) "m" [("k", 1)] "44k" 1 "n" 2).dict.info =
      toString (2 : Int) ++ "epoch" ∧
    (save (id : Nat → Nat) "m" [("k", 1)] "44k" 1 "n" 2).dict.sr = "44k" ∧
    (save (id : Nat → Nat) "m" [("k", 1)] "44k" 1 "n" 2).dict.f0 = 1 ∧
    (save (id : Nat → Nat) "m" [("k", 1)] "44k" 1 "n" 2).path =
      pjoin (pjoin "m" "checkpoints") ("n" ++ ".pth") :=
  C3_unrecognized_tag id "m" [("k", 1)] "44k" 1 "n" 2
    (by decide) (by decide) (by decide)

/-- C5: a key containing the substring `"enc_q"` is absent from the
packaged `weight` mapping, and an entry of the input state dict whose key
does not contain it is present, with its tensor converted by `half`. -/
theorem C5_enc_q_filter (half : α → β) (modelsDir : String)
    (ckpt : List (String × α)) (sr : String) (if_f0 : Int) (name : String)
    (epoch : Int) (key : String) :
    (("enc_q".data <:+: key.data) →
      ∀ v : β,
        (key, v) ∉ (save half modelsDir ckpt sr if_f0 name epoch).dict.weight) ∧
    (¬ ("enc_q".data <:+: key.data) →
      ∀ tv : α, (key, tv) ∈ ckpt →
        (key, half tv) ∈
          (save half modelsDir ckpt sr if_f0 name epoch).dict.weight) := by
  have hw : (save half modelsDir ckpt sr if_f0 name epoch).dict.weight =
      (ckpt.filter (fun kv => !containsEncQ kv.1)).map
        (fun kv => (kv.1, half kv.2)) := by
    simp only [save]
    split <;> try split <;> try split
    all_goals rfl
  constructor
  · intro hin v hv
    rw [hw] at hv
    rcases List.mem_map.mp hv with ⟨kv, hkv, heq⟩
    have hk : kv.1 = key := congrArg Prod.fst heq
    have hfil := (List.mem_filter.mp hkv).2
    rw [hk] at hfil
    simp only [containsEncQ, Bool.not_eq_true', decide_eq_false_iff_not] at hfil
    exact hfil hin
  · intro hnin tv htv
    rw [hw]
    refine List.mem_map.mpr ⟨(key, tv), List.mem_filter.mpr ⟨htv, ?_⟩, rfl⟩
    simp only [containsEncQ, Bool.not_eq_true', decide_eq_false_iff_not]
    exact hnin

/-- Witness for C5: a concrete state dict with one `enc_q` key and one
ordinary key. -/
theorem C5_enc_q_filter_witness :
    (("enc_q".data <:+: "a.enc_q.w".data) →
      ∀ v : Nat,
        ("a.enc_q.w", v) ∉
          (save Nat.succ "m" [("a.enc_q.w", 3), ("dec.w", 4)]
            "40k" 1 "n" 2).dict.weight) ∧
    (¬ ("enc_q".data <:+: "a.enc_q.w".data) →
      ∀ tv : Nat, ("a.enc_q.w", tv) ∈ [("a.enc_q.w", 3), ("dec.w", 4)] →
        ("a.enc_q.w", Nat.succ tv) ∈
          (save Nat.succ "m" [("a.enc_q.w", 3), ("dec.w", 4)]
            "40k" 1 "n" 2).dict.weight) :=
  C5_enc_q_filter Nat.succ "m" [("a.enc_q.w", 3), ("dec.w", 4)] "40k" 1 "n" 2
    "a.enc_q.w"

/-- C7: packaging is deterministic on the non-tensor fields — two
invocations of `save` on identical inputs produce identical `config`,
`params`, `info`, `sr` and `f0`. -/
theorem C7_deterministic_packaging (half : α → β) (modelsDir : String)
    (ckpt₁ ckpt₂ : List (String × α)) (sr₁ sr₂ : String) (f₁ f₂ : Int)
    (n₁ n₂ : String) (e₁ e₂ : Int)
    (hc : ckpt₁ = ckpt₂) (hs : sr₁ = sr₂) (hf : f₁ = f₂) (hn : n₁ = n₂)
    (he : e₁ = e₂) :
    (save half modelsDir ckpt₁ sr₁ f₁ n₁ e₁).dict.config =
      (save half modelsDir ckpt₂ sr₂ f₂ n₂ e₂).dict.config ∧
    (save half modelsDir ckpt₁ sr₁ f₁ n₁ e₁).dict.params =
      (save half modelsDir ckpt₂ sr₂ f₂ n₂ e₂).dict.params ∧
    (save half modelsDir ckpt₁ sr₁ f₁ n₁ e₁).dict.info =
      (save half modelsDir ckpt₂ sr₂ f₂ n₂ e₂).dict.info ∧
    (save half modelsDir ckpt₁ sr₁ f₁ n₁ e₁).dict.sr =
      (save half modelsDir ckpt₂ sr₂ f₂ n₂ e₂).dict.sr ∧
    (save half modelsDir ckpt₁ sr₁ f₁ n₁ e₁).dict.f0 =
      (save half modelsDir ckpt₂ sr₂ f₂ n₂ e₂).dict.f0 := by
  subst hc hs hf hn he
  exact ⟨rfl, rfl, rfl, rfl, rfl⟩

/-- Witness for C7 at concrete identical inputs. -/
theorem C7_deterministic_packaging_witness :
    (save (id : Nat → Nat) "m" [("w", 5)] "48k" 0 "n" 7).dict.config =
      (save (id : Nat → Nat) "m" [("w", 5)] "48k" 0 "n" 7).dict.config ∧
    (save (id : Nat → Nat) "m" [("w", 5)] "48k" 0 "n" 7).dict.params =
      (save (id : Nat → Nat) "m" [("w", 5)] "48k" 0 "n" 7).dict.params ∧
    (save (id : Nat → Nat) "m" [("w", 5)] "48k" 0 "n" 7).dict.info =
      (save (id : Nat → Nat) "m" [("w", 5)] "48k" 0 "n" 7).dict.info ∧
    (save (id : Nat → Nat) "m" [("w", 5)] "48k" 0 "n" 7).dict.sr =
      (save (id : Nat → Nat) "m" [("w", 5)] "48k" 0 "n" 7).dict.sr ∧
    (save (id : Nat → Nat) "m" [("w", 5)] "48k" 0 "n" 7).dict.f0 =
      (save (id : Nat → Nat) "m" [("w", 5)] "48k" 0 "n" 7).dict.f0 :=
  C7_deterministic_packaging id "m" [("w", 5)] [("w", 5)] "48k" "48k" 0 0
    "n" "n" 7 7 rfl rfl rfl rfl rfl

/-- C9: for a recognized sampling-rate tag, the packaged `config` list is
exactly the values of the `params` mapping in insertion order (both are
written by `write_config` from the same preset). -/
theorem C9_config_eq_params_values (half : α → β) (modelsDir : String)
    (ckpt : List (String × α)) (sr : String) (if_f0 : Int) (name : String)
    (epoch : Int) (h : sr = "32k" ∨ sr = "40k" ∨ sr = "48k") :
    (save half modelsDir ckpt sr if_f0 name epoch).dict.config =
      ((save half modelsDir ckpt sr if_f0 name epoch).dict.params).map
        (fun l => l.map (fun x => x.2)) := by
  rcases h with h | h | h <;> subst h <;> rfl

/-- Witness for C9 at the concrete tag `"40k"`. -/
theorem C9_config_eq_params_values_witness :
    (save (id : Nat → Nat) "m" [("w", 5)] "40k" 1 "n" 3).dict.config =
      ((save (id : Nat → Nat) "m" [("w", 5)] "40k" 1 "n" 3).dict.params).map
        (fun l => l.map (fun x => x.2)) :=
  C9_config_eq_params_values id "m" [("w", 5)] "40k" 1 "n" 3
    (Or.inr (Or.inl rfl))

/-- A character reached by `head?` is a member of the list. -/
lemma mem_of_head?_eq {l : List Char} {c : Char} (h : l.head? = some c) :
    c ∈ l := by
  cases l with
  | nil => simp at h
  | cons a as =>
    simp only [List.head?_cons, Option.some.injEq] at h
    exact h ▸ List.mem_cons_self a as

/-- A string whose characters avoid `/` does not start with `/`. -/
lemma head_ne_slash {s : String} (h : ('/' : Char) ∉ s.data) :
    s.data.head? ≠ some '/' :=
  fun hc => h (mem_of_head?_eq hc)

/-- Appending to a string that does not start with `/` (to one that does
not either) yields a string that does not start with `/`. -/
lemma head?_append_ne_slash (s t : String) (hs : s.data.head? ≠ some '/')
    (ht : t.data.head? ≠ some '/') : (s ++ t).data.head? ≠ some '/' := by
  rw [String.data_append]
  cases hh : s.data with
  | nil => simpa using ht
  | cons c cs =>
    rw [hh] at hs
    simpa using hs

/-- Computing `getLast?` of an append with a nonempty right part. -/
lemma getLast?_append_right {l l' : List Char} (h : l' ≠ []) :
    (l ++ l').getLast? = l'.getLast? := by
  rw [List.getLast?_append]
  cases hl : l'.getLast? with
  | none => exact absurd (List.getLast?_eq_none_iff.mp hl) h
  | some c => rfl

/-- When the second component is relative, the first nonempty and not
`/`-terminated, `os.path.join` is concatenation with a `/` separator. -/
lemma pjoin_file (dir f : String) (h1 : dir ≠ "")
    (h2 : dir.data.getLast? ≠ some '/') (hf : f.data.head? ≠ some '/') :
    pjoin dir f = dir ++ "/" ++ f := by
  unfold pjoin
  rw [if_neg hf, if_neg h1, if_neg h2]

/-- Joining a relative nonempty subdirectory name: the result is nonempty
and ends with the last character of the subdirectory name. -/
lemma pjoin_subdir_spec (T sub : String) (hs : sub.data.head? ≠ some '/')
    (hne : sub.data ≠ []) :
    pjoin T sub ≠ "" ∧ (pjoin T sub).data.getLast? = sub.data.getLast? := by
  unfold pjoin
  rw [if_neg hs]
  by_cases hT : T = ""
  · rw [if_pos hT]
    exact ⟨fun h => hne (String.ext_iff.mp h), rfl⟩
  · rw [if_neg hT]
    by_cases hTl : T.data.getLast? = some '/'
    · rw [if_pos hTl]
      constructor
      · intro h
        have hd := String.ext_iff.mp h
        rw [String.data_append] at hd
        exact hne (List.append_eq_nil.mp hd).2
      · rw [String.data_append]
        exact getLast?_append_right hne
    · rw [if_neg hTl]
      constructor
      · intro h
        have hd := String.ext_iff.mp h
        rw [String.data_append] at hd
        exact hne (List.append_eq_nil.mp hd).2
      · rw [String.data_append]
        exact getLast?_append_right hne

/-- The `0_gt_wavs` folder path is nonempty and not `/`-terminated. -/
lemma gtWavsDir_spec (md mn : String) :
    gtWavsDirOf md mn ≠ "" ∧
      (gtWavsDirOf md mn).data.getLast? ≠ some '/' := by
  obtain ⟨h1, h2⟩ :=
    pjoin_subdir_spec (trainingDirOf md mn) "0_gt_wavs" (by decide) (by decide)
  exact ⟨h1, by rw [gtWavsDirOf, h2]; decide⟩

/-- The `3_feature256` folder path is nonempty and not `/`-terminated. -/
lemma co256Dir_spec (md mn : String) :
    co256DirOf md mn ≠ "" ∧
      (co256DirOf md mn).data.getLast? ≠ some '/' := by
  obtain ⟨h1, h2⟩ :=
    pjoin_subdir_spec (trainingDirOf md mn) "3_feature256" (by decide)
      (by decide)
  exact ⟨h1, by rw [co256DirOf, h2]; decide⟩

/-- The `2a_f0` folder path is nonempty and not `/`-terminated. -/
lemma f0Dir_spec (md mn : String) :
    f0DirOf md mn ≠ "" ∧ (f0DirOf md mn).data.getLast? ≠ some '/' := by
  obtain ⟨h1, h2⟩ :=
    pjoin_subdir_spec (trainingDirOf md mn) "2a_f0" (by decide) (by decide)
  exact ⟨h1, by rw [f0DirOf, h2]; decide⟩

/-- The `2b_f0nsf` folder path is nonempty and not `/`-terminated. -/
lemma f0nsfDir_spec (md mn : String) :
    f0nsfDirOf md mn ≠ "" ∧
      (f0nsfDirOf md mn).data.getLast? ≠ some '/' := by
  obtain ⟨h1, h2⟩ :=
    pjoin_subdir_spec (trainingDirOf md mn) "2b_f0nsf" (by decide) (by decide)
  exact ⟨h1, by rw [f0nsfDirOf, h2]; decide⟩

/-- The characters of a no-pitch sample line, grouped around the two
occurrences of the identifier. -/
lemma sampleLine_data_false (md mn : String) (spk : Nat) (id : String)
    (hid : id.data.head? ≠ some '/') :
    (sampleLine md mn false spk id).data =
      ((((gtWavsDirOf md mn).data ++ "/".data) ++ id.data) ++
          (".wav".data ++ "|".data ++ (co256DirOf md mn).data ++ "/".data)) ++
        (id.data ++ (".npy".data ++ "|".data ++ (toString spk).data)) := by
  have hgt := gtWavsDir_spec md mn
  have hco := co256Dir_spec md mn
  have h1 : pjoin (gtWavsDirOf md mn) (id ++ ".wav") =
      gtWavsDirOf md mn ++ "/" ++ (id ++ ".wav") :=
    pjoin_file _ _ hgt.1 hgt.2 (head?_append_ne_slash _ _ hid (by decide))
  have h2 : pjoin (co256DirOf md mn) (id ++ ".npy") =
      co256DirOf md mn ++ "/" ++ (id ++ ".npy") :=
    pjoin_file _ _ hco.1 hco.2 (head?_append_ne_slash _ _ hid (by decide))
  simp only [sampleLine, Bool.false_eq_true, if_false, h1, h2,
    String.data_append, List.append_assoc]

/-- The characters of a pitch-guided sample line, grouped around the four
occurrences of the identifier. -/
lemma sampleLine_data_true (md mn : String) (spk : Nat) (id : String)
    (hid : id.data.head? ≠ some '/') :
    (sampleLine md mn true spk id).data =
      ((((gtWavsDirOf md mn).data ++ "/".data) ++ id.data) ++
          (".wav".data ++ "|".data ++ (co256DirOf md mn).data ++ "/".data)) ++
        ((id.data ++
            (".npy".data ++ "|".data ++ (f0DirOf md mn).data ++ "/".data)) ++
          ((id.data ++
              (".wav.npy".data ++ "|".data ++ (f0nsfDirOf md mn).data ++
                "/".data)) ++
            (id.data ++
              (".wav.npy".data ++ "|".data ++ (toString spk).data)))) := by
  have hgt := gtWavsDir_spec md mn
  have hco := co256Dir_spec md mn
  have hf0 := f0Dir_spec md mn
  have hnsf := f0nsfDir_spec md mn
  have h1 : pjoin (gtWavsDirOf md mn) (id ++ ".wav") =
      gtWavsDirOf md mn ++ "/" ++ (id ++ ".wav") :=
    pjoin_file _ _ hgt.1 hgt.2 (head?_append_ne_slash _ _ hid (by decide))
  have h2 : pjoin (co256DirOf md mn) (id ++ ".npy") =
      co256DirOf md mn ++ "/" ++ (id ++ ".npy") :=
    pjoin_file _ _ hco.1 hco.2 (head?_append_ne_slash _ _ hid (by decide))
  have h3 : pjoin (f0DirOf md mn) (id ++ ".wav.npy") =
      f0DirOf md mn ++ "/" ++ (id ++ ".wav.npy") :=
    pjoin_file _ _ hf0.1 hf0.2 (head?_append_ne_slash _ _ hid (by decide))
  have h4 : pjoin (f0nsfDirOf md mn) (id ++ ".wav.npy") =
      f0nsfDirOf md mn ++ "/" ++ (id ++ ".wav.npy") :=
    pjoin_file _ _ hnsf.1 hnsf.2 (head?_append_ne_slash _ _ hid (by decide))
  simp only [sampleLine, if_true, h1, h2, h3, h4,
    String.data_append, List.append_assoc]

/-- Cancelling the context around two matching occurrences of a sublist. -/
lemma concat2_inj {P M S a b : List Char}
    (h : ((P ++ a) ++ M) ++ (a ++ S) = ((P ++ b) ++ M) ++ (b ++ S)) :
    a = b := by
  have hlen : a.length = b.length := by
    have hl := congrArg List.length h
    simp only [List.length_append] at hl
    omega
  have h' := h
  simp only [List.append_assoc] at h'
  exact List.append_inj_left (List.append_cancel_left h') hlen

/-- Cancelling the context around four matching occurrences of a sublist. -/
lemma concat4_inj {P M1 M2 M3 S a b : List Char}
    (h : ((P ++ a) ++ M1) ++ ((a ++ M2) ++ ((a ++ M3) ++ (a ++ S))) =
         ((P ++ b) ++ M1) ++ ((b ++ M2) ++ ((b ++ M3) ++ (b ++ S)))) :
    a = b := by
  have hlen : a.length = b.length := by
    have hl := congrArg List.length h
    simp only [List.length_append] at hl
    omega
  have h' := h
  simp only [List.append_assoc] at h'
  exact List.append_inj_left (List.append_cancel_left h') hlen

/-- Two identifiers that do not start with `/` and produce the same sample
line are equal. -/
lemma sampleLine_inj {md mn : String} {p : Bool} {spk : Nat} {a b : String}
    (ha : a.data.head? ≠ some '/') (hb : b.data.head? ≠ some '/')
    (h : sampleLine md mn p spk a = sampleLine md mn p spk b) : a = b := by
  cases p with
  | false =>
    have hd := congrArg String.data h
    rw [sampleLine_data_false md mn spk a ha,
      sampleLine_data_false md mn spk b hb] at hd
    exact String.ext (concat2_inj hd)
  | true =>
    have hd := congrArg String.data h
    rw [sampleLine_data_true md mn spk a ha,
      sampleLine_data_true md mn spk b hb] at hd
    exact String.ext (concat4_inj hd)

/-- Membership in a folder's identifier set: some listed file name has this
identifier as its part before the first dot. -/
lemma mem_sampleIds {files : List String} {id : String} :
    id ∈ sampleIds files ↔ ∃ f ∈ files, idOf f = id := by
  simp [sampleIds, List.mem_dedup]

/-- The identifier's characters all occur in the file name. -/
lemma idOf_data_subset (f : String) : (idOf f).data ⊆ f.data :=
  (List.takeWhile_sublist _).subset

/-- Identifiers derived from a slash-free listing are slash-free. -/
lemma noSlash_of_mem_sampleIds {files : List String}
    (h : noSlashListing files) {id : String} (hm : id ∈ sampleIds files) :
    ('/' : Char) ∉ id.data := by
  obtain ⟨f, hf, rfl⟩ := mem_sampleIds.mp hm
  intro hc
  exact h f hf (idOf_data_subset f hc)

/-- Membership in the intersection computed by the manifest builder: the
identifier is present in the ground-truth and feature folders, and — when
pitch guidance is on — in both f0 folders. -/
lemma mem_namesOf {d : FolderState} {p : Bool} {id : String} :
    id ∈ namesOf d p ↔
      id ∈ sampleIds d.gtWavs ∧ id ∈ sampleIds d.feature256 ∧
        (p = true → id ∈ sampleIds d.f0 ∧ id ∈ sampleIds d.f0nsf) := by
  cases p with
  | false => simp [namesOf, List.mem_filter]
  | true =>
    simp only [namesOf, List.mem_filter, Bool.and_eq_true, decide_eq_true_eq,
      Bool.or_eq_true, Bool.not_eq_true']
    constructor
    · rintro ⟨h1, h2, h3⟩
      rcases h3 with h3 | h3
      · cases h3
      · exact ⟨h1, h2, fun _ => ⟨h3.1, h3.2⟩⟩
    · rintro ⟨h1, h2, h3⟩
      exact ⟨h1, h2, Or.inr ⟨(h3 trivial).1, (h3 trivial).2⟩⟩

/-- The intersection list is duplicate-free. -/
lemma namesOf_nodup (d : FolderState) (p : Bool) : (namesOf d p).Nodup :=
  (List.nodup_dedup _).filter _

/-- Identifiers in the intersection are slash-free when the ground-truth
listing is. -/
lemma noSlash_of_mem_namesOf {d : FolderState} {p : Bool}
    (hgt : noSlashListing d.gtWavs) {id : String} (h : id ∈ namesOf d p) :
    ('/' : Char) ∉ id.data :=
  noSlash_of_mem_sampleIds hgt (mem_namesOf.mp h).1

/-- A sample line occurs among the manifest's sample lines exactly when its
identifier survives the intersection. -/
lemma mem_sampleLines_iff (md mn : String) (p : Bool) (spk : Nat)
    (d : FolderState) (hgt : noSlashListing d.gtWavs) {id : String}
    (hid : ('/' : Char) ∉ id.data) :
    sampleLine md mn p spk id ∈ sampleLines md mn p spk d ↔
      id ∈ namesOf d p := by
  constructor
  · intro h
    obtain ⟨j, hj, hje⟩ := List.mem_map.mp h
    have hjs := noSlash_of_mem_namesOf hgt hj
    have hj_eq := sampleLine_inj (head_ne_slash hjs) (head_ne_slash hid) hje
    exact hj_eq ▸ hj
  · intro h
    exact List.mem_map.mpr ⟨id, h, rfl⟩

/-- Each surviving identifier contributes exactly one sample line. -/
lemma count_sampleLines (md mn : String) (p : Bool) (spk : Nat)
    (d : FolderState) (hgt : noSlashListing d.gtWavs) {id : String}
    (h : id ∈ namesOf d p) :
    (sampleLines md mn p spk d).count (sampleLine md mn p spk id) = 1 := by
  have hnd : (sampleLines md mn p spk d).Nodup :=
    (namesOf_nodup d p).map_on (fun x hx y hy hxy =>
      sampleLine_inj (head_ne_slash (noSlash_of_mem_namesOf hgt hx))
        (head_ne_slash (noSlash_of_mem_namesOf hgt hy)) hxy)
  exact List.count_eq_one_of_mem hnd (List.mem_map.mpr ⟨id, h, rfl⟩)

/-- After `removeId`, the identifier is gone from the folder's id set. -/
lemma not_mem_sampleIds_removeId (files : List String) (id : String) :
    id ∉ sampleIds (removeId files id) := by
  intro h
  obtain ⟨f, hf, hfe⟩ := mem_sampleIds.mp h
  have hne := (List.mem_filter.mp hf).2
  rw [decide_eq_true_eq] at hne
  exact hne hfe

/-- Filtering with `removeId` preserves slash-freeness of a listing. -/
lemma noSlashListing_removeId {files : List String} {id : String}
    (h : noSlashListing files) : noSlashListing (removeId files id) :=
  fun f hf => h f (List.mem_filter.mp hf).1

/-- C1: the manifest is the sample lines plus the fixed mute line; a
sample line is present iff its identifier lies in every required folder's
id set (both f0 folders being required exactly when pitch guidance is on);
a surviving identifier contributes exactly one sample line; and removing
the identifier's entries from any single required folder excludes its
line.  The slash-freeness hypotheses hold of any real `os.listdir` result. -/
theorem C1_manifest_is_intersection (md mn sr : String) (p : Bool)
    (spk : Nat) (d : FolderState) (hgt : noSlashListing d.gtWavs)
    (id : String) (hid : ('/' : Char) ∉ id.data) :
    (manifest md mn sr p spk d =
      sampleLines md mn p spk d ++ [muteLine md sr p spk]) ∧
    (sampleLine md mn p spk id ∈ sampleLines md mn p spk d ↔
      id ∈ sampleIds d.gtWavs ∧ id ∈ sampleIds d.feature256 ∧
        (p = true → id ∈ sampleIds d.f0 ∧ id ∈ sampleIds d.f0nsf)) ∧
    (id ∈ namesOf d p →
      (sampleLines md mn p spk d).count (sampleLine md mn p spk id) = 1) ∧
    (sampleLine md mn p spk id ∉
      sampleLines md mn p spk { d with gtWavs := removeId d.gtWavs id }) ∧
    (sampleLine md mn p spk id ∉
      sampleLines md mn p spk
        { d with feature256 := removeId d.feature256 id }) ∧
    (p = true → sampleLine md mn p spk id ∉
      sampleLines md mn p spk { d with f0 := removeId d.f0 id }) ∧
    (p = true → sampleLine md mn p spk id ∉
      sampleLines md mn p spk { d with f0nsf := removeId d.f0nsf id }) := by
  refine ⟨rfl, (mem_sampleLines_iff md mn p spk d hgt hid).trans mem_namesOf,
    count_sampleLines md mn p spk d hgt, ?_, ?_, ?_, ?_⟩
  · intro hmem
    have h1 :=
      (mem_sampleLines_iff md mn p spk _ (noSlashListing_removeId hgt)
        hid).mp hmem
    exact not_mem_sampleIds_removeId d.gtWavs id (mem_namesOf.mp h1).1
  · intro hmem
    have h1 := (mem_sampleLines_iff md mn p spk
      { d with feature256 := removeId d.feature256 id } hgt hid).mp hmem
    exact not_mem_sampleIds_removeId d.feature256 id (mem_namesOf.mp h1).2.1
  · intro hp hmem
    have h1 := (mem_sampleLines_iff md mn p spk
      { d with f0 := removeId d.f0 id } hgt hid).mp hmem
    exact not_mem_sampleIds_removeId d.f0 id ((mem_namesOf.mp h1).2.2 hp).1
  · intro hp hmem
    have h1 := (mem_sampleLines_iff md mn p spk
      { d with f0nsf := removeId d.f0nsf id } hgt hid).mp hmem
    exact not_mem_sampleIds_removeId d.f0nsf id
      ((mem_namesOf.mp h1).2.2 hp).2

/-- Witness for C1 with pitch guidance on: folders holding samples `a`
(everywhere) and `b` (ground truth only). -/
theorem C1_manifest_is_intersection_witness :
    (manifest "m" "n" "40k" true 0
        ⟨["a.wav", "b.wav"], ["a.npy"], ["a.wav.npy"], ["a.wav.npy"]⟩ =
      sampleLines "m" "n" true 0
          ⟨["a.wav", "b.wav"], ["a.npy"], ["a.wav.npy"], ["a.wav.npy"]⟩ ++
        [muteLine "m" "40k" true 0]) ∧
    (sampleLine "m" "n" true 0 "a" ∈ sampleLines "m" "n" true 0
        ⟨["a.wav", "b.wav"], ["a.npy"], ["a.wav.npy"], ["a.wav.npy"]⟩ ↔
      "a" ∈ sampleIds ["a.wav", "b.wav"] ∧ "a" ∈ sampleIds ["a.npy"] ∧
        (true = true → "a" ∈ sampleIds ["a.wav.npy"] ∧
          "a" ∈ sampleIds ["a.wav.npy"])) ∧
    ("a" ∈ namesOf
        ⟨["a.wav", "b.wav"], ["a.npy"], ["a.wav.npy"], ["a.wav.npy"]⟩ true →
      (sampleLines "m" "n" true 0
          ⟨["a.wav", "b.wav"], ["a.npy"], ["a.wav.npy"],
            ["a.wav.npy"]⟩).count (sampleLine "m" "n" true 0 "a") = 1) ∧
    (sampleLine "m" "n" true 0 "a" ∉ sampleLines "m" "n" true 0
      ⟨removeId ["a.wav", "b.wav"] "a", ["a.npy"], ["a.wav.npy"],
        ["a.wav.npy"]⟩) ∧
    (sampleLine "m" "n" true 0 "a" ∉ sampleLines "m" "n" true 0
      ⟨["a.wav", "b.wav"], removeId ["a.npy"] "a", ["a.wav.npy"],
        ["a.wav.npy"]⟩) ∧
    (true = true → sampleLine "m" "n" true 0 "a" ∉ sampleLines "m" "n" true 0
      ⟨["a.wav", "b.wav"], ["a.npy"], removeId ["a.wav.npy"] "a",
        ["a.wav.npy"]⟩) ∧
    (true = true → sampleLine "m" "n" true 0 "a" ∉ sampleLines "m" "n" true 0
      ⟨["a.wav", "b.wav"], ["a.npy"], ["a.wav.npy"],
        removeId ["a.wav.npy"] "a"⟩) :=
  C1_manifest_is_intersection "m" "n" "40k" true 0
    ⟨["a.wav", "b.wav"], ["a.npy"], ["a.wav.npy"], ["a.wav.npy"]⟩
    (by unfold noSlashListing; decide) "a" (by decide)

/-- C6: when the intersection of the required folders' identifier sets is
empty, the manifest-building step (a total function here, so no exception
arises) produces the mute line alone. -/
theorem C6_empty_intersection (md mn sr : String) (p : Bool) (spk : Nat)
    (d : FolderState)
    (h : ∀ id, ¬(id ∈ sampleIds d.gtWavs ∧ id ∈ sampleIds d.feature256 ∧
        (p = true → id ∈ sampleIds d.f0 ∧ id ∈ sampleIds d.f0nsf))) :
    manifest md mn sr p spk d = [muteLine md sr p spk] := by
  have hn : namesOf d p = [] := by
    rw [List.eq_nil_iff_forall_not_mem]
    intro id hid
    exact h id (mem_namesOf.mp hid)
  simp [manifest, sampleLines, hn]

/-- Witness for C6: all folders empty. -/
theorem C6_empty_intersection_witness :
    manifest "m" "n" "40k" false 0 ⟨[], [], [], []⟩ =
      [muteLine "m" "40k" false 0] :=
  C6_empty_intersection "m" "n" "40k" false 0 ⟨[], [], [], []⟩
    (fun id h => by simp [sampleIds] at h)

/-- The field count is one more than the `|` count. -/
lemma splitFields_length (l : List Char) :
    (splitFields l).length = l.count '|' + 1 := by
  induction l with
  | nil => rfl
  | cons c rest ih =>
    by_cases hc : c = '|'
    · subst hc
      simp [splitFields, ih, List.count_cons]
    · simp only [splitFields, if_neg hc]
      cases hsf : splitFields rest with
      | nil => rw [hsf] at ih; simp at ih
      | cons f fs =>
        rw [hsf] at ih
        simp only [List.length_cons] at ih ⊢
        have hcnt : (c :: rest).count '|' = rest.count '|' := by
          simp [List.count_cons, hc]
        omega

/-- A `|`-free string contributes zero separators. -/
lemma count_pipe_zero {s : String} (h : ('|' : Char) ∉ s.data) :
    s.data.count '|' = 0 :=
  List.count_eq_zero.mpr h

/-- Joining paths introduces no `|`. -/
lemma noPipe_pjoin {a b : String} (ha : ('|' : Char) ∉ a.data)
    (hb : ('|' : Char) ∉ b.data) : ('|' : Char) ∉ (pjoin a b).data := by
  unfold pjoin
  split_ifs
  · exact hb
  · exact hb
  · intro h
    rw [String.data_append] at h
    rcases List.mem_append.mp h with h | h
    · exact ha h
    · exact hb h
  · intro h
    rw [String.data_append, String.data_append] at h
    rcases List.mem_append.mp h with h | h
    · rcases List.mem_append.mp h with h | h
      · exact ha h
      · exact absurd h (by decide)
    · exact hb h

/-- Neither does plain string concatenation. -/
lemma noPipe_append {a b : String} (ha : ('|' : Char) ∉ a.data)
    (hb : ('|' : Char) ∉ b.data) : ('|' : Char) ∉ (a ++ b).data := by
  intro h
  rw [String.data_append] at h
  rcases List.mem_append.mp h with h | h
  · exact ha h
  · exact hb h

/-- The training directory path is `|`-free when the models root and the
model name are. -/
lemma noPipe_trainingDir {md mn : String} (hmd : ('|' : Char) ∉ md.data)
    (hmn : ('|' : Char) ∉ mn.data) :
    ('|' : Char) ∉ (trainingDirOf md mn).data :=
  noPipe_pjoin (noPipe_pjoin (noPipe_pjoin hmd (by decide)) (by decide)) hmn

/-- A sample line has exactly 4 separators with pitch guidance and 2
without, provided the inputs carry no `|` themselves. -/
lemma count_pipe_sampleLine (md mn : String) (p : Bool) (spk : Nat)
    (id : String) (hmd : ('|' : Char) ∉ md.data)
    (hmn : ('|' : Char) ∉ mn.data) (hspk : ('|' : Char) ∉ (toString spk).data)
    (hid : ('|' : Char) ∉ id.data) :
    (sampleLine md mn p spk id).data.count '|' = if p then 4 else 2 := by
  have htd := noPipe_trainingDir hmd hmn
  have hgt : ('|' : Char) ∉
      (pjoin (gtWavsDirOf md mn) (id ++ ".wav")).data :=
    noPipe_pjoin (noPipe_pjoin htd (by decide)) (noPipe_append hid (by decide))
  have hco : ('|' : Char) ∉
      (pjoin (co256DirOf md mn) (id ++ ".npy")).data :=
    noPipe_pjoin (noPipe_pjoin htd (by decide)) (noPipe_append hid (by decide))
  have hf0 : ('|' : Char) ∉
      (pjoin (f0DirOf md mn) (id ++ ".wav.npy")).data :=
    noPipe_pjoin (noPipe_pjoin htd (by decide)) (noPipe_append hid (by decide))
  have hnsf : ('|' : Char) ∉
      (pjoin (f0nsfDirOf md mn) (id ++ ".wav.npy")).data :=
    noPipe_pjoin (noPipe_pjoin htd (by decide)) (noPipe_append hid (by decide))
  cases p with
  | false =>
    simp only [sampleLine, Bool.false_eq_true, if_false, String.data_append,
      List.count_append]
    rw [count_pipe_zero hgt, count_pipe_zero hco, count_pipe_zero hspk]
    rfl
  | true =>
    simp only [sampleLine, if_true, String.data_append, List.count_append]
    rw [count_pipe_zero hgt, count_pipe_zero hco, count_pipe_zero hf0,
      count_pipe_zero hnsf, count_pipe_zero hspk]
    rfl

/-- The mute line has exactly 4 separators with pitch guidance and 2
without, provided the inputs carry no `|` themselves. -/
lemma count_pipe_muteLine (md sr : String) (p : Bool) (spk : Nat)
    (hmd : ('|' : Char) ∉ md.data) (hsr : ('|' : Char) ∉ sr.data)
    (hspk : ('|' : Char) ∉ (toString spk).data) :
    (muteLine md sr p spk).data.count '|' = if p then 4 else 2 := by
  have hmute : ('|' : Char) ∉
      (pjoin (pjoin md "training") "mute").data :=
    noPipe_pjoin (noPipe_pjoin hmd (by decide)) (by decide)
  have hgt : ('|' : Char) ∉
      (pjoin (pjoin (pjoin (pjoin md "training") "mute") "0_gt_wavs")
        ("mute" ++ sr ++ ".wav")).data :=
    noPipe_pjoin (noPipe_pjoin hmute (by decide))
      (noPipe_append (noPipe_append (by decide) hsr) (by decide))
  have hco : ('|' : Char) ∉
      (pjoin (pjoin (pjoin (pjoin md "training") "mute") "3_feature256")
        "mute.npy").data :=
    noPipe_pjoin (noPipe_pjoin hmute (by decide)) (by decide)
  have hf0 : ('|' : Char) ∉
      (pjoin (pjoin (pjoin (pjoin md "training") "mute") "2a_f0")
        "mute.wav.npy").data :=
    noPipe_pjoin (noPipe_pjoin hmute (by decide)) (by decide)
  have hnsf : ('|' : Char) ∉
      (pjoin (pjoin (pjoin (pjoin md "training") "mute") "2b_f0nsf")
        "mute.wav.npy").data :=
    noPipe_pjoin (noPipe_pjoin hmute (by decide)) (by decide)
  cases p with
  | false =>
    simp only [muteLine, Bool.false_eq_true, if_false, String.data_append,
      List.count_append]
    rw [count_pipe_zero hgt, count_pipe_zero hco, count_pipe_zero hspk]
    rfl
  | true =>
    simp only [muteLine, if_true, String.data_append, List.count_append]
    rw [count_pipe_zero hgt, count_pipe_zero hco, count_pipe_zero hf0,
      count_pipe_zero hnsf, count_pipe_zero hspk]
    rfl

/-- C4 counterexample: with a model name containing `|` (free-form UI
text), a no-pitch manifest line has 5 pipe-delimited fields, not 3, so the
claim as stated fails on the code. -/
theorem C4_counterexample :
    ¬ (∀ line ∈ manifest "m" "a|b" "40k" false 0
          ⟨["x.wav"], ["x.npy"], [], []⟩,
        numFields line = 3) := by
  decide

/-- The predicate `∀ c ∈ l, c ≠ ch` stops `takeWhile` exactly at the first
`ch`. -/
lemma takeWhile_append_stop {l1 l2 : List Char} (h : ∀ c ∈ l1, c ≠ '.') :
    (l1 ++ '.' :: l2).takeWhile (fun c => c ≠ '.') = l1 := by
  induction l1 with
  | nil => simp [List.takeWhile_cons]
  | cons c cs ih =>
    have hc := h c (List.mem_cons_self c cs)
    simp only [List.cons_append, List.takeWhile_cons, decide_eq_true_eq]
    rw [if_pos hc, ih (fun x hx => h x (List.mem_cons_of_mem c hx))]

/-- C10: the manifest builder derives each identifier as the part of the
listed file name before its first dot — so two file names differing only
after their first dot yield the same identifier — and rebuilds every path
written to the manifest from that identifier with a fixed suffix
(`.wav`, `.npy`, `.wav.npy`, `.wav.npy`), not from the listed file name. -/
theorem C10_identifier_derivation :
    (∀ p q r : String, ('.' : Char) ∉ p.data →
      idOf (p ++ "." ++ q) = p ∧
        idOf (p ++ "." ++ q) = idOf (p ++ "." ++ r)) ∧
    (∀ (md mn : String) (spk : Nat) (id : String),
      sampleLine md mn false spk id =
        pjoin (gtWavsDirOf md mn) (id ++ ".wav") ++ "|" ++
          pjoin (co256DirOf md mn) (id ++ ".npy") ++ "|" ++ toString spk) ∧
    (∀ (md mn : String) (spk : Nat) (id : String),
      sampleLine md mn true spk id =
        pjoin (gtWavsDirOf md mn) (id ++ ".wav") ++ "|" ++
          pjoin (co256DirOf md mn) (id ++ ".npy") ++ "|" ++
          pjoin (f0DirOf md mn) (id ++ ".wav.npy") ++ "|" ++
          pjoin (f0nsfDirOf md mn) (id ++ ".wav.npy") ++ "|" ++
          toString spk) := by
  refine ⟨?_, fun md mn spk id => rfl, fun md mn spk id => rfl⟩
  intro p q r hp
  have key : ∀ s : String, idOf (p ++ "." ++ s) = p := by
    intro s
    apply String.ext
    show ((p ++ "." ++ s).data).takeWhile (fun c => c ≠ '.') = p.data
    rw [String.data_append, String.data_append]
    have hdot : (".").data = ['.'] := rfl
    rw [hdot, List.append_assoc, List.singleton_append]
    exact takeWhile_append_stop (fun c hc he => hp (he ▸ hc))
  exact ⟨key q, (key q).trans (key r).symm⟩

/-- Witness for C10 at two concrete file names sharing the pre-dot part. -/
theorem C10_identifier_derivation_witness :
    idOf ("a" ++ "." ++ "wav") = "a" ∧
      idOf ("a" ++ "." ++ "wav") = idOf ("a" ++ "." ++ "txt") :=
  C10_identifier_derivation.1 "a" "wav" "txt" (by decide)

/-- C8: the trace of every run decomposes into the six stages in their
fixed order — directory setup, preprocess, extract f0, extract features,
build manifest, run training — and within each stage the status string is
yielded before the stage's filesystem effect or external call; trace order
is execution order, so no stage begins before the previous one returned. -/
theorem C8_stage_order (modelsDir : String) (a : TrainArgs)
    (dirExists : Bool) (d : FolderState) :
    trainTrace modelsDir a dirExists d =
      ([Event.status
          ("Training directory: " ++ trainingDirOf modelsDir a.modelName)] ++
        (if dirExists && a.ignoreCache then
          [Event.rmtree (trainingDirOf modelsDir a.modelName)] else []) ++
        [Event.makedirs (trainingDirOf modelsDir a.modelName)]) ++
      ([Event.status "Preprocessing...",
        Event.callPreprocess a.datasetDir (SR_DICT.lookup a.targetSr)
          a.numCpuProcess (trainingDirOf modelsDir a.modelName)]) ++
      ([Event.status "Extracting f0...",
        Event.callExtractF0 (trainingDirOf modelsDir a.modelName)
          a.numCpuProcess a.pitchExtractionAlgo]) ++
      ([Event.status "Extracting features...",
        Event.callExtractFeature (trainingDirOf modelsDir a.modelName)]) ++
      ([Event.writeFile
          (pjoin (trainingDirOf modelsDir a.modelName) "filelist.txt")
          (manifestFile modelsDir a.modelName a.targetSr
            (decide (a.f0Choice = "Yes")) a.speakerId d)]) ++
      ([Event.status "Training...",
        Event.callRunTraining (a.gpuId.splitOn ",")
          (trainingDirOf modelsDir a.modelName) a.modelName a.targetSr
          (if a.f0Choice = "Yes" then 1 else 0) a.batchSize a.cacheBatch
          a.numEpochs a.saveEveryEpoch a.preTrainedG a.preTrainedD]) := by
  unfold trainTrace
  cases hc : dirExists && a.ignoreCache <;> simp

/-- A `|`-free prefix becomes the first field. -/
lemma splitFields_append {a rest : List Char} (h : ('|' : Char) ∉ a) :
    splitFields (a ++ '|' :: rest) = a :: splitFields rest := by
  induction a with
  | nil => simp [splitFields]
  | cons c cs ih =>
    have hc : c ≠ '|' := fun he => h (he ▸ List.mem_cons_self c cs)
    simp only [List.cons_append, splitFields, if_neg hc, List.append_eq]
    rw [ih (fun hx => h (List.mem_cons_of_mem c hx))]

/-- A `|`-free string is a single field. -/
lemma splitFields_no_pipe {a : List Char} (h : ('|' : Char) ∉ a) :
    splitFields a = [a] := by
  induction a with
  | nil => rfl
  | cons c cs ih =>
    have hc : c ≠ '|' := fun he => h (he ▸ List.mem_cons_self c cs)
    simp only [splitFields, if_neg hc, List.append_eq]
    rw [ih (fun hx => h (List.mem_cons_of_mem c hx))]

/-- Field decomposition of a sample line: the documented fields in the
documented order, when the inputs carry no `|` themselves. -/
lemma fields_sampleLine (md mn : String) (p : Bool) (spk : Nat) (id : String)
    (hmd : ('|' : Char) ∉ md.data) (hmn : ('|' : Char) ∉ mn.data)
    (hspk : ('|' : Char) ∉ (toString spk).data)
    (hid : ('|' : Char) ∉ id.data) :
    splitFields (sampleLine md mn p spk id).data =
      if p then
        [(pjoin (gtWavsDirOf md mn) (id ++ ".wav")).data,
         (pjoin (co256DirOf md mn) (id ++ ".npy")).data,
         (pjoin (f0DirOf md mn) (id ++ ".wav.npy")).data,
         (pjoin (f0nsfDirOf md mn) (id ++ ".wav.npy")).data,
         (toString spk).data]
      else
        [(pjoin (gtWavsDirOf md mn) (id ++ ".wav")).data,
         (pjoin (co256DirOf md mn) (id ++ ".npy")).data,
         (toString spk).data] := by
  have htd := noPipe_trainingDir hmd hmn
  have hgt : ('|' : Char) ∉
      (pjoin (gtWavsDirOf md mn) (id ++ ".wav")).data :=
    noPipe_pjoin (noPipe_pjoin htd (by decide)) (noPipe_append hid (by decide))
  have hco : ('|' : Char) ∉
      (pjoin (co256DirOf md mn) (id ++ ".npy")).data :=
    noPipe_pjoin (noPipe_pjoin htd (by decide)) (noPipe_append hid (by decide))
  have hf0 : ('|' : Char) ∉
      (pjoin (f0DirOf md mn) (id ++ ".wav.npy")).data :=
    noPipe_pjoin (noPipe_pjoin htd (by decide)) (noPipe_append hid (by decide))
  have hnsf : ('|' : Char) ∉
      (pjoin (f0nsfDirOf md mn) (id ++ ".wav.npy")).data :=
    noPipe_pjoin (noPipe_pjoin htd (by decide)) (noPipe_append hid (by decide))
  cases p with
  | false =>
    simp only [sampleLine, Bool.false_eq_true, if_false, String.data_append,
      show ("|").data = ['|'] from rfl, List.append_assoc,
      List.singleton_append, List.cons_append, List.nil_append]
    rw [splitFields_append hgt, splitFields_append hco,
      splitFields_no_pipe hspk]
  | true =>
    simp only [sampleLine, if_true, String.data_append,
      show ("|").data = ['|'] from rfl, List.append_assoc,
      List.singleton_append, List.cons_append, List.nil_append]
    rw [splitFields_append hgt, splitFields_append hco,
      splitFields_append hf0, splitFields_append hnsf,
      splitFields_no_pipe hspk]

/-- C4 (amended): every manifest line has exactly 5 pipe-delimited fields
with pitch guidance and exactly 3 without, and each sample line's fields
are, in order, the ground-truth path, the feature path, (both f0 paths
when enabled,) the speaker id — provided the models root, the model name,
the sampling-rate tag, the speaker id's decimal form and the listed file
names contain no `|` character. -/
theorem C4_field_count (md mn sr : String) (p : Bool) (spk : Nat)
    (d : FolderState) (hmd : ('|' : Char) ∉ md.data)
    (hmn : ('|' : Char) ∉ mn.data) (hsr : ('|' : Char) ∉ sr.data)
    (hspk : ('|' : Char) ∉ (toString spk).data)
    (hgt : ∀ f ∈ d.gtWavs, ('|' : Char) ∉ f.data) :
    (∀ line ∈ manifest md mn sr p spk d,
      numFields line = if p then 5 else 3) ∧
    (∀ id ∈ namesOf d p,
      splitFields (sampleLine md mn p spk id).data =
        if p then
          [(pjoin (gtWavsDirOf md mn) (id ++ ".wav")).data,
           (pjoin (co256DirOf md mn) (id ++ ".npy")).data,
           (pjoin (f0DirOf md mn) (id ++ ".wav.npy")).data,
           (pjoin (f0nsfDirOf md mn) (id ++ ".wav.npy")).data,
           (toString spk).data]
        else
          [(pjoin (gtWavsDirOf md mn) (id ++ ".wav")).data,
           (pjoin (co256DirOf md mn) (id ++ ".npy")).data,
           (toString spk).data]) := by
  constructor
  · intro line hl
    unfold manifest at hl
    rcases List.mem_append.mp hl with hl | hl
    · obtain ⟨id, hidm, rfl⟩ := List.mem_map.mp hl
      have hid : ('|' : Char) ∉ id.data := by
        obtain ⟨f, hf, rfl⟩ := mem_sampleIds.mp (mem_namesOf.mp hidm).1
        intro hc
        exact hgt f hf (idOf_data_subset f hc)
      unfold numFields
      rw [splitFields_length,
        count_pipe_sampleLine md mn p spk id hmd hmn hspk hid]
      cases p <;> rfl
    · rw [List.mem_singleton] at hl
      subst hl
      unfold numFields
      rw [splitFields_length, count_pipe_muteLine md sr p spk hmd hsr hspk]
      cases p <;> rfl
  · intro id hidm
    have hid : ('|' : Char) ∉ id.data := by
      obtain ⟨f, hf, rfl⟩ := mem_sampleIds.mp (mem_namesOf.mp hidm).1
      intro hc
      exact hgt f hf (idOf_data_subset f hc)
    exact fields_sampleLine md mn p spk id hmd hmn hspk hid

/-- Witness for the amended C4 on a concrete pipe-free state. -/
theorem C4_field_count_witness :
    (∀ line ∈ manifest "m" "n" "40k" false 0 ⟨["x.wav"], ["x.npy"], [], []⟩,
      numFields line = if false then 5 else 3) ∧
    (∀ id ∈ namesOf ⟨["x.wav"], ["x.npy"], [], []⟩ false,
      splitFields (sampleLine "m" "n" false 0 id).data =
        if false then
          [(pjoin (gtWavsDirOf "m" "n") (id ++ ".wav")).data,
           (pjoin (co256DirOf "m" "n") (id ++ ".npy")).data,
           (pjoin (f0DirOf "m" "n") (id ++ ".wav.npy")).data,
           (pjoin (f0nsfDirOf "m" "n") (id ++ ".wav.npy")).data,
           (toString (0 : Nat)).data]
        else
          [(pjoin (gtWavsDirOf "m" "n") (id ++ ".wav")).data,
           (pjoin (co256DirOf "m" "n") (id ++ ".npy")).data,
           (toString (0 : Nat)).data]) :=
  C4_field_count "m" "n" "40k" false 0 ⟨["x.wav"], ["x.npy"], [], []⟩
    (by decide) (by decide) (by decide) (by decide) (by decide)
